import Mathlib

/-!
# Verification of the libmsgpack single-header MessagePack codec

Shallow embedding of `src/mp.hpp`: the bounds-checked stream cursors
(`stream::StreamReader` / `stream::StreamWriter`) and the `mp::MessagePack`
codec (encode helpers and `decode_single`).  Bytes are modelled as `Nat`
(each `< 256` by construction), buffers as `List Nat`, machine-integer
casts as explicit `% 2^w` truncation, null pointers as `Option`.  The host
is little-endian (the source targets MSVC/x86: `_byteswap_*` intrinsics,
Windows test harness), so POD loads/stores are little-endian and the
`bswap_intrin*` intrinsics are byte reversals.
-/

namespace LibMsgpack

/-- Little-endian byte list of width `w` for value `v` (truncates to `w`
bytes, i.e. models a cast to a `w`-byte unsigned integer). -/
def leBytes : Nat → Nat → List Nat
  | 0, _ => []
  | w + 1, v => (v % 256) :: leBytes w (v / 256)

/-- Value of a little-endian byte list (inverse of `leBytes`). -/
def leValue : List Nat → Nat
  | [] => 0
  | b :: bs => b + 256 * leValue bs

/-- `bswap_intrin16`: byte reversal of a 16-bit value. -/
def bswap16 (v : Nat) : Nat := leValue (List.reverse (leBytes 2 v))

/-- `bswap_intrin32`: byte reversal of a 32-bit value. -/
def bswap32 (v : Nat) : Nat := leValue (List.reverse (leBytes 4 v))

/-- `bswap_intrin64`: byte reversal of a 64-bit value. -/
def bswap64 (v : Nat) : Nat := leValue (List.reverse (leBytes 8 v))

/-- Two's-complement reinterpretation of a `bits`-wide unsigned value as a
signed integer. -/
def asSigned (bits : Nat) (v : Nat) : Int :=
  if v < 2 ^ (bits - 1) then (v : Int) else (v : Int) - 2 ^ bits

/-- Overwrite the bytes of `bs` starting at `pos` with `src`
(`memcpy(bs + pos, src, src.length)`). -/
def writeBytes (bs : List Nat) (pos : Nat) (src : List Nat) : List Nat :=
  bs.take pos ++ src ++ bs.drop (pos + src.length)

/-!
## Stream cursors (`stream::StreamReader`, `stream::StreamWriter`)

`buffer = none` models a null `buffer_` pointer; `hasReader` /
`hasWriter` model a non-null `reader_` / `writer_` callback.  The
injected copy callback is the verbatim byte copy (`memcpy`, as in the
repository's tests and the spec's default).
-/

/-- `stream::StreamReader`: position, capacity, buffer pointer and the
presence of the injected reader callback. -/
structure StreamReader where
  position : Nat
  streamSize : Nat
  buffer : Option (List Nat)
  hasReader : Bool
deriving Repr, DecidableEq

/-- `StreamReader::operator bool`: reader callback and buffer both bound. -/
def StreamReader.isValid (s : StreamReader) : Bool :=
  s.hasReader && !s.buffer.isNone

/-- `stream::StreamWriter`: position, capacity, buffer pointer and the
presence of the injected writer callback. -/
structure StreamWriter where
  position : Nat
  streamSize : Nat
  buffer : Option (List Nat)
  hasWriter : Bool
deriving Repr, DecidableEq

/-- `StreamWriter::operator bool`: writer callback and buffer both bound. -/
def StreamWriter.isValid (s : StreamWriter) : Bool :=
  s.hasWriter && !s.buffer.isNone

/-- `StreamReader::_read_and_advance(count, dst, peek)`: copy `count` bytes
from the stream into `dst`, advancing the cursor unless peeking; rejected
as a no-op when `count == 0`, `dst` is null, `count >= stream_size_`,
`position_ + count > stream_size_` (the pointer comparison
`read_pos + count > end()`), or the cursor is invalid. -/
def readAndAdvance (s : StreamReader) (count : Nat) (dst : Option (List Nat))
    (peek : Bool) : Option (List Nat) × StreamReader :=
  if count = 0 ∨ dst = none ∨ count ≥ s.streamSize ∨
      s.position + count > s.streamSize ∨ s.isValid = false then
    (dst, s)
  else
    let bs := ((s.buffer.getD []).drop s.position).take count
    (some (bs ++ (dst.getD []).drop count),
      if peek then s else { s with position := s.position + count })

/-- `StreamReader::_read_pod<Ty>`: zero-initialize a `w`-byte POD, run the
guarded copy into it, and return its (little-endian) value. -/
def readPod (s : StreamReader) (w : Nat) (peek : Bool) : Nat × StreamReader :=
  let p := readAndAdvance s w (some (List.replicate w 0)) peek
  (leValue (p.1.getD []), p.2)

/-- `StreamWriter::_write_and_advance(count, src)`: copy `count` bytes from
`src` into the stream and advance; rejected as a complete no-op under the
same guard as the read side (with `src` as the null-checked pointer). -/
def writeAndAdvance (s : StreamWriter) (count : Nat) (src : Option (List Nat)) :
    StreamWriter :=
  if count = 0 ∨ src = none ∨ count ≥ s.streamSize ∨
      s.position + count > s.streamSize ∨ s.isValid = false then
    s
  else
    { s with
      buffer := some (writeBytes (s.buffer.getD []) s.position
        ((src.getD []).take count)),
      position := s.position + count }

/-- `StreamWriter::write_pod<Ty>`: write the `w` little-endian bytes of
`value` through the guarded copy. -/
def writePod (s : StreamWriter) (w v : Nat) : StreamWriter :=
  writeAndAdvance s w (some (leBytes w v))

/-!
## Marker catalog (`mp::MPMarker`)

`MPMarker` is a C++ `enum class : mp_u8`; any byte value is representable,
so markers are modelled as the `Nat` byte value with named constants for
the declared enumerators (`dr.marker = static_cast<MPMarker>(raw)` keeps
the raw byte).
-/

namespace MPMarker

def PosFixInt : Nat := 0x00
def FixMap : Nat := 0x80
def FixArray : Nat := 0x90
def FixStr : Nat := 0xa0
def Nil : Nat := 0xc0
def Unused : Nat := 0xc1
def False : Nat := 0xc2
def True : Nat := 0xc3
def Bin8 : Nat := 0xc4
def Bin16 : Nat := 0xc5
def Bin32 : Nat := 0xc6
def Ext8 : Nat := 0xc7
def Ext16 : Nat := 0xc8
def Ext32 : Nat := 0xc9
def Float32 : Nat := 0xca
def Float64 : Nat := 0xcb
def Uint8 : Nat := 0xcc
def Uint16 : Nat := 0xcd
def Uint32 : Nat := 0xce
def Uint64 : Nat := 0xcf
def Int8 : Nat := 0xd0
def Int16 : Nat := 0xd1
def Int32 : Nat := 0xd2
def Int64 : Nat := 0xd3
def FixExt1 : Nat := 0xd4
def FixExt2 : Nat := 0xd5
def FixExt4 : Nat := 0xd6
def FixExt8 : Nat := 0xd7
def FixExt16 : Nat := 0xd8
def Str8 : Nat := 0xd9
def Str16 : Nat := 0xda
def Str32 : Nat := 0xdb
def Array16 : Nat := 0xdc
def Array32 : Nat := 0xdd
def Map16 : Nat := 0xde
def Map32 : Nat := 0xdf
def NegFixInt : Nat := 0xe0

end MPMarker

/-- `MessagePack::is_fixext` applied to `static_cast<MPMarker>(raw)`:
the byte is one of the five FixExt enumerators 0xD4..0xD8. -/
def isFixextByte (b : Nat) : Bool :=
  b = 0xd4 || b = 0xd5 || b = 0xd6 || b = 0xd7 || b = 0xd8

/-!
## `MPDecodeResult`

The anonymous union is modelled as its 31 bytes (the width of
`as_fixstr`, the largest member).  Member stores write little-endian
bytes at the member's offset (all members start at offset 0; the fixext
`data` arrays start at offset 1, after the `type` byte); member reads
recombine little-endian, matching the x86 host.
-/

/-- The 31 bytes of the `MPDecodeResult::result` union. -/
abbrev Union31 := List Nat

/-- Union zero-initialization (`dr.result.as_u64 = 0` on a fresh result:
the whole 31-byte union is zero after `MPDecodeResult dr { }` and the
explicit store only touches the first 8 bytes, which are already 0). -/
def unionZero : Union31 := List.replicate 31 0

/-- Store `src` into the union at byte offset `off`. -/
def unionStore (u : Union31) (off : Nat) (src : List Nat) : Union31 :=
  writeBytes u off src

/-- Store a `w`-byte unsigned member (`as_u8`/`as_u16`/`as_u32`/`as_u64`)
at offset 0. -/
def unionStoreLE (u : Union31) (w v : Nat) : Union31 :=
  unionStore u 0 (leBytes w v)

/-- Store the `as_i8` member: the two's-complement byte of `v`. -/
def unionStoreI8 (u : Union31) (v : Int) : Union31 :=
  unionStore u 0 [(v % 256).toNat]

/-- Read the `as_u8` union member. -/
def asU8 (u : Union31) : Nat := u.headD 0

/-- Read the `as_u16` union member. -/
def asU16 (u : Union31) : Nat := leValue (u.take 2)

/-- Read the `as_u32` union member. -/
def asU32 (u : Union31) : Nat := leValue (u.take 4)

/-- Read the `as_u64` union member. -/
def asU64 (u : Union31) : Nat := leValue (u.take 8)

/-- Read the `as_i8` union member. -/
def asI8 (u : Union31) : Int := asSigned 8 (asU8 u)

/-- Read the `as_i16` union member. -/
def asI16 (u : Union31) : Int := asSigned 16 (asU16 u)

/-- Read the `as_i32` union member. -/
def asI32 (u : Union31) : Int := asSigned 32 (asU32 u)

/-- Read the `as_i64` union member. -/
def asI64 (u : Union31) : Int := asSigned 64 (asU64 u)

/-- `mp::MPDecodeResult`: resolved marker (as its byte value), payload
size / element count, and the result union. -/
structure MPDecodeResult where
  marker : Nat
  size : Nat
  result : Union31
deriving Repr, DecidableEq

/-!
## `mp::MessagePack` codec state

One read cursor and one write cursor over the same buffer.  The two
cursors alias `buffer_`, so the codec state keeps a single byte list and
the two positions; `reader`/`writer` views reconstruct the stream
objects with the shared buffer bound and valid callbacks, modelling a
codec after `initialize_streams` with non-null arguments (as in the
repository's tests). -/
structure MessagePack where
  rpos : Nat
  wpos : Nat
  size : Nat
  buf : List Nat
deriving Repr, DecidableEq

/-- The codec's `sr_` view of the shared buffer. -/
def MessagePack.reader (m : MessagePack) : StreamReader :=
  ⟨m.rpos, m.size, some m.buf, true⟩

/-- The codec's `wr_` view of the shared buffer. -/
def MessagePack.writer (m : MessagePack) : StreamWriter :=
  ⟨m.wpos, m.size, some m.buf, true⟩

/-- A freshly initialized codec over a zeroed buffer of `c` bytes
(`initialize_streams(0, c, buffer, memcpy, memcpy)` after `memset 0`,
as in the repository's test fixtures). -/
def mkMP (c : Nat) : MessagePack :=
  ⟨0, 0, c, List.replicate c 0⟩

/-- `sr_._read_pod<w-byte Ty>()` on the codec: raw little-endian load. -/
def rdPod (m : MessagePack) (w : Nat) : Nat × MessagePack :=
  let p := readPod m.reader w false
  (p.1, { m with rpos := p.2.position })

/-- `sr_.read(count, dst)` on the codec with a zeroed `count`-byte
destination (the union region it targets is zero at every call site). -/
def rdRaw (m : MessagePack) (count : Nat) : List Nat × MessagePack :=
  let p := readAndAdvance m.reader count (some (List.replicate count 0)) false
  (p.1.getD [], { m with rpos := p.2.position })

/-- `wr_.write_pod<w-byte Ty>(v)` on the codec. -/
def wrPod (m : MessagePack) (w v : Nat) : MessagePack :=
  let s := writePod m.writer w v
  { m with wpos := s.position, buf := s.buffer.getD m.buf }

/-- `wr_.write(count, src)` on the codec. -/
def wrBytes (m : MessagePack) (count : Nat) (src : Option (List Nat)) :
    MessagePack :=
  let s := writeAndAdvance m.writer count src
  { m with wpos := s.position, buf := s.buffer.getD m.buf }

/-- `MessagePack::read_u8`: `sr_.read_u8()` (no endianness conversion). -/
def mpReadU8 (m : MessagePack) : Nat × MessagePack := rdPod m 1

/-- `MessagePack::read_u16`: `bswap_intrin16(sr_.read_u16())`. -/
def mpReadU16 (m : MessagePack) : Nat × MessagePack :=
  let p := rdPod m 2
  (bswap16 p.1, p.2)

/-- `MessagePack::read_u32`: `bswap_intrin32(sr_.read_u32())`. -/
def mpReadU32 (m : MessagePack) : Nat × MessagePack :=
  let p := rdPod m 4
  (bswap32 p.1, p.2)

/-- `MessagePack::read_u64`: `bswap_intrin64(sr_.read_u64())`. -/
def mpReadU64 (m : MessagePack) : Nat × MessagePack :=
  let p := rdPod m 8
  (bswap64 p.1, p.2)

/-!
## Encode path
-/

/-- `MessagePack::write_marker`: one byte, the marker value. -/
def write_marker (m : MessagePack) (k : Nat) : MessagePack :=
  wrPod m 1 k

/-- `MessagePack::write_negfixint(value)`: writes
`0xe0 | (value & 0x1F)`; on the `mp_i8` argument the two's-complement
`& 0x1F` is the euclidean `value % 32`. -/
def write_negfixint (m : MessagePack) (v : Int) : MessagePack :=
  wrPod m 1 (0xe0 ||| (v % 32).toNat)

/-- The `data` argument of `write_raw_value`: a `u64` that is a plain
value for integer kinds and a (possibly null) pointer to bytes for
string/binary/fixext kinds, depending on `kind`. -/
inductive WRData where
  | val (v : Nat)
  | ptr (p : Option (List Nat))
deriving Repr, DecidableEq

/-- The `data` word read as an integer value (only ever done on `val`
call sites). -/
def WRData.asVal : WRData → Nat
  | WRData.val v => v
  | WRData.ptr _ => 0

/-- The `data` word reinterpreted as a byte pointer (only ever done on
`ptr` call sites). -/
def WRData.asPtr : WRData → Option (List Nat)
  | WRData.val _ => none
  | WRData.ptr p => p

/-- The shared Bin8/16/32 and Str8/16/32 family branch of
`write_raw_value`: `length = (mp_u32) size`, then the 8-bit form for
`size <= 255`, the 16-bit form (big-endian) for `size <= 65535`, the
32-bit form (big-endian) for `size <= 0xffffffff` (no header at all
beyond that), followed by the raw payload bytes. -/
def writeBinStrFamily (m : MessagePack) (data : WRData) (size : Nat)
    (mk8 mk16 mk32 : Nat) : MessagePack :=
  let length := size % 4294967296
  if size ≤ 255 then
    let length := length &&& 0xff
    wrBytes (wrPod (write_marker m mk8) 1 length) length data.asPtr
  else if size ≤ 65535 then
    let length := length &&& 0xffff
    wrBytes (wrPod (write_marker m mk16) 2 (bswap16 length)) length data.asPtr
  else if size ≤ 4294967295 then
    let length := length &&& 0xffffffff
    wrBytes (wrPod (write_marker m mk32) 4 (bswap32 length)) length data.asPtr
  else
    wrBytes m length data.asPtr

/-- `MessagePack::write_raw_value(data, size, kind)`: the single encode
dispatch point, branch for branch. -/
def write_raw_value (m : MessagePack) (data : WRData) (size : Nat)
    (kind : Nat) : MessagePack :=
  if kind = MPMarker.NegFixInt then
    wrPod m 1 (0xe0 ||| (data.asVal &&& 0x1f))
  else if kind = MPMarker.PosFixInt then
    wrPod m 1 (data.asVal &&& 0x7f)
  else if kind = MPMarker.FixStr then
    let length := size &&& 0x1f
    wrBytes (wrPod m 1 (MPMarker.FixStr ||| length)) length data.asPtr
  else if kind = MPMarker.Nil ∨ kind = MPMarker.False ∨ kind = MPMarker.True then
    write_marker m kind
  else if kind = MPMarker.Bin8 ∨ kind = MPMarker.Bin16 ∨ kind = MPMarker.Bin32 then
    writeBinStrFamily m data size MPMarker.Bin8 MPMarker.Bin16 MPMarker.Bin32
  else if kind = MPMarker.Str8 ∨ kind = MPMarker.Str16 ∨ kind = MPMarker.Str32 then
    writeBinStrFamily m data size MPMarker.Str8 MPMarker.Str16 MPMarker.Str32
  else
    let m1 := write_marker m kind
    if kind = MPMarker.Uint8 ∨ kind = MPMarker.Int8 then
      wrPod m1 1 (data.asVal &&& 0xff)
    else if kind = MPMarker.Uint16 ∨ kind = MPMarker.Int16 then
      wrPod m1 2 (bswap16 ((data.asVal &&& 0xffff) % 65536))
    else if kind = MPMarker.Uint32 ∨ kind = MPMarker.Int32 then
      wrPod m1 4 (bswap32 (data.asVal &&& 0xffffffff))
    else if kind = MPMarker.Uint64 ∨ kind = MPMarker.Int64 then
      wrPod m1 8 (bswap64 data.asVal)
    else if kind = MPMarker.FixExt1 then
      wrBytes m1 2 data.asPtr
    else if kind = MPMarker.FixExt2 then
      wrBytes m1 3 data.asPtr
    else if kind = MPMarker.FixExt4 then
      wrBytes m1 5 data.asPtr
    else if kind = MPMarker.FixExt8 then
      wrBytes m1 9 data.asPtr
    else if kind = MPMarker.FixExt16 then
      wrBytes m1 17 data.asPtr
    else
      m1

/-- `MessagePack::start_array(num_elem)`: FixArray for
`num_elem <= FixArrayMax (15)`, Array16 (big-endian count) for
`num_elem <= Array16Max (65535)`, else Array32 (big-endian count). -/
def start_array (m : MessagePack) (numElem : Nat) : MessagePack :=
  if numElem ≤ 15 then
    wrPod m 1 (MPMarker.FixArray ||| (numElem &&& 0xf))
  else if numElem ≤ 65535 then
    wrPod (write_marker m MPMarker.Array16) 2 (bswap16 ((numElem &&& 0xffff) % 65536))
  else
    wrPod (write_marker m MPMarker.Array32) 4 (bswap32 ((numElem &&& 0xffffffff) % 4294967296))

/-- `MessagePack::start_map(num_pairs)`: the first branch tests
`num_pairs <= Map16Max (65535)` (not `FixMapMax`) and writes the
single FixMap byte; the second tests `num_pairs <= Map32Max
(4294967295)` and writes a Map16 header; else Map32. -/
def start_map (m : MessagePack) (numPairs : Nat) : MessagePack :=
  if numPairs ≤ 65535 then
    wrPod m 1 (MPMarker.FixMap ||| (numPairs &&& 0xf))
  else if numPairs ≤ 4294967295 then
    wrPod (write_marker m MPMarker.Map16) 2 (bswap16 ((numPairs &&& 0xffff) % 65536))
  else
    wrPod (write_marker m MPMarker.Map32) 4 (bswap32 ((numPairs &&& 0xffffffff) % 4294967296))

/-- `MessagePack::write_u8`. -/
def write_u8 (m : MessagePack) (v : Nat) : MessagePack :=
  write_raw_value m (WRData.val v) 1 MPMarker.Uint8

/-- `MessagePack::write_u16`. -/
def write_u16 (m : MessagePack) (v : Nat) : MessagePack :=
  write_raw_value m (WRData.val v) 2 MPMarker.Uint16

/-- `MessagePack::write_u32`. -/
def write_u32 (m : MessagePack) (v : Nat) : MessagePack :=
  write_raw_value m (WRData.val v) 4 MPMarker.Uint32

/-- `MessagePack::write_u64`. -/
def write_u64 (m : MessagePack) (v : Nat) : MessagePack :=
  write_raw_value m (WRData.val v) 8 MPMarker.Uint64

/-- `MessagePack::write_posfixint`. -/
def write_posfixint (m : MessagePack) (v : Nat) : MessagePack :=
  write_raw_value m (WRData.val v) 1 MPMarker.PosFixInt

/-- `MessagePack::write_fixint(value)`: the PosFixInt path for
`value > 0`, else the NegFixInt path (`write_negfixint`). -/
def write_fixint (m : MessagePack) (v : Int) : MessagePack :=
  if v > 0 then write_posfixint m v.toNat else write_negfixint m v

/-- `MessagePack::write_uint(value)`: smallest representation, with the
casts of the source at each call (`mp_u8`/`mp_u16`/`mp_u32`). -/
def write_uint (m : MessagePack) (v : Nat) : MessagePack :=
  if v ≤ 127 then write_posfixint m (v &&& 0x7f)
  else if v ≤ 255 then write_u8 m (v % 256)
  else if v ≤ 65535 then write_u16 m (v % 65536)
  else if v ≤ 4294967295 then write_u32 m (v % 4294967296)
  else write_u64 m v

/-!
## Decode path (`MessagePack::decode_single`)
-/

/-- The primary `switch (dr.marker)` of `decode_single`, dispatching on the
raw byte (the `static_cast<MPMarker>(raw)` scrutinee): returns the
populated `dr.size`, the union contents and the advanced codec state.
The five range-packed enumerators (and `Unused`, `Float32/64`) only
`break`; bytes matching no case label fall through unchanged. -/
def decodeSwitch (raw : Nat) (m : MessagePack) : Nat × Union31 × MessagePack :=
  match raw with
  | 0x00 | 0x80 | 0x90 | 0xa0 | 0xe0 => (0, unionZero, m)
  | 0xc0 | 0xc2 => (1, unionStore unionZero 0 [0], m)
  | 0xc1 => (0, unionZero, m)
  | 0xc3 => (1, unionStore unionZero 0 [1], m)
  | 0xd9 | 0xc4 =>
    let p := mpReadU8 m
    (p.1, unionZero, p.2)
  | 0xda | 0xc5 =>
    let p := mpReadU16 m
    (p.1, unionZero, p.2)
  | 0xdb | 0xc6 =>
    let p := mpReadU32 m
    (p.1, unionZero, p.2)
  | 0xc7 =>
    let p := mpReadU8 m
    (p.1, unionZero, p.2)
  | 0xc8 =>
    let p := mpReadU16 m
    (p.1, unionZero, p.2)
  | 0xc9 =>
    let p := mpReadU32 m
    (p.1, unionZero, p.2)
  | 0xca | 0xcb => (0, unionZero, m)
  | 0xcc =>
    let p := mpReadU8 m
    (1, unionStoreLE unionZero 1 p.1, p.2)
  | 0xcd =>
    let p := mpReadU16 m
    (2, unionStoreLE unionZero 2 p.1, p.2)
  | 0xce =>
    let p := mpReadU32 m
    (4, unionStoreLE unionZero 4 p.1, p.2)
  | 0xcf =>
    -- Uint64: `dr.result.as_u64 = sr_.read_u64()` — the raw stream read,
    -- without the big-endian conversion the other integer widths use.
    let p := rdPod m 8
    (8, unionStoreLE unionZero 8 p.1, p.2)
  | 0xd0 =>
    -- Int8: `dr.result.as_i8 = sr_.read_i8()` — stores the raw byte.
    let p := rdPod m 1
    (1, unionStoreLE unionZero 1 p.1, p.2)
  | 0xd1 =>
    -- Int16: `dr.result.as_i16 = read_i16()`; the signed cast chain is
    -- byte-identical to storing the byte-swapped raw load.
    let p := rdPod m 2
    (2, unionStoreLE unionZero 2 (bswap16 p.1), p.2)
  | 0xd2 =>
    let p := rdPod m 4
    (4, unionStoreLE unionZero 4 (bswap32 p.1), p.2)
  | 0xd3 =>
    let p := rdPod m 8
    (8, unionStoreLE unionZero 8 (bswap64 p.1), p.2)
  | 0xd4 =>
    let p := mpReadU8 m
    let q := mpReadU8 p.2
    (2, unionStore unionZero 0 [p.1, q.1], q.2)
  | 0xd5 =>
    let p := mpReadU8 m
    let q := rdRaw p.2 2
    (3, unionStore (unionStore unionZero 0 [p.1]) 1 q.1, q.2)
  | 0xd6 =>
    let p := mpReadU8 m
    let q := rdRaw p.2 4
    (5, unionStore (unionStore unionZero 0 [p.1]) 1 q.1, q.2)
  | 0xd7 =>
    let p := mpReadU8 m
    let q := rdRaw p.2 8
    (9, unionStore (unionStore unionZero 0 [p.1]) 1 q.1, q.2)
  | 0xd8 =>
    -- FixExt16: the source stores via the `as_fixext8` member, which is
    -- byte-for-byte the same layout (type at offset 0, data at offset 1).
    let p := mpReadU8 m
    let q := rdRaw p.2 16
    (17, unionStore (unionStore unionZero 0 [p.1]) 1 q.1, q.2)
  | 0xde | 0xdc =>
    -- Map16 / Array16: `dr.size = sr_.read_u16()` — raw little-endian
    -- stream read, no big-endian conversion.
    let p := rdPod m 2
    (p.1, unionZero, p.2)
  | 0xdf | 0xdd =>
    -- Map32 / Array32: `dr.size = sr_.read_u32()` — raw read, no swap.
    let p := rdPod m 4
    (p.1, unionZero, p.2)
  | _ => (0, unionZero, m)

/-- `MessagePack::decode_single()`: read the marker byte, run the primary
switch, then the compact-range fallback, executed when the byte is not a
fixext enumerator and the populated size is 0.  The fallback cascade is
translated condition for condition: `(raw & 0x80) == 0` ⇒ PosFixInt;
`(raw & 0xe0) == 0xe0` ⇒ NegFixInt; `(raw & 0x80) == 0x80` ⇒ FixMap;
`(raw & 0x90) == 0x90` ⇒ FixArray; `(raw & 0xa0) == 0xa0` ⇒ FixStr with
its payload read inline. -/
def decode_single (m : MessagePack) : MPDecodeResult × MessagePack :=
  let p := mpReadU8 m
  let raw := p.1
  let m1 := p.2
  let q := decodeSwitch raw m1
  let sz := q.1
  let u := q.2.1
  let m2 := q.2.2
  if isFixextByte raw = false ∧ sz = 0 then
    if raw &&& 0x80 = 0 then
      (⟨MPMarker.PosFixInt, 1, unionStoreLE u 1 (raw &&& 0x7f)⟩, m2)
    else if raw &&& 0xe0 = 0xe0 then
      (⟨MPMarker.NegFixInt, 1, unionStoreI8 u (((raw &&& 0x1f : Nat) : Int) - 0x20)⟩, m2)
    else if raw &&& 0x80 = 0x80 then
      (⟨MPMarker.FixMap, raw &&& 0xf, u⟩, m2)
    else if raw &&& 0x90 = 0x90 then
      (⟨MPMarker.FixArray, raw &&& 0xf, u⟩, m2)
    else if raw &&& 0xa0 = 0xa0 then
      let fsz := raw &&& 0x1f
      let r := rdRaw m2 fsz
      (⟨MPMarker.FixStr, fsz, unionStore u 0 r.1⟩, r.2)
    else
      (⟨raw, sz, u⟩, m2)
  else
    (⟨raw, sz, u⟩, m2)

/-!
## Shared lemmas about the cursor guard
-/

/-- A read whose guard condition holds is a complete no-op. -/
lemma readAndAdvance_of_reject (s : StreamReader) (count : Nat)
    (dst : Option (List Nat)) (peek : Bool)
    (h : count = 0 ∨ dst = none ∨ count ≥ s.streamSize ∨
      s.position + count > s.streamSize ∨ s.isValid = false) :
    readAndAdvance s count dst peek = (dst, s) := by
  unfold readAndAdvance
  rw [if_pos h]

/-- A write whose guard condition holds is a complete no-op. -/
lemma writeAndAdvance_of_reject (s : StreamWriter) (count : Nat)
    (src : Option (List Nat))
    (h : count = 0 ∨ src = none ∨ count ≥ s.streamSize ∨
      s.position + count > s.streamSize ∨ s.isValid = false) :
    writeAndAdvance s count src = s := by
  unfold writeAndAdvance
  rw [if_pos h]

/-- A list of zero bytes has value zero. -/
lemma leValue_replicate_zero (n : Nat) : leValue (List.replicate n 0) = 0 := by
  induction n with
  | zero => rfl
  | succ k ih => simp [List.replicate, leValue, ih]

/-!
## Claim theorems
-/

/-- C1: evaluation of the code at the claim's own concrete input:
`start_array(3)` writes the byte 0x93, and `decode_single` then returns
marker = FixMap (not FixArray, as the claim states) with size = 3 — in
the fallback cascade the FixMap test `(raw & 0x80) == 0x80` accepts every
byte with the top bit set, so the FixArray and FixStr branches below it
are unreachable. -/
theorem c1_start_array_decode_eval :
    (decode_single (start_array (mkMP 16) 3)).1.marker = MPMarker.FixMap ∧
    (decode_single (start_array (mkMP 16) 3)).1.size = 3 ∧
    (start_array (mkMP 16) 3).buf.headD 0 = 0x93 ∧
    MPMarker.FixMap ≠ MPMarker.FixArray := by decide

/-- C2: evaluation of the code at the claim's concrete input: decoding a
stream whose next byte is the reserved code point 0xC1 returns
marker = FixMap with size = 1 (0xC1 & 0x0F), not the Unused failure
sentinel with size 0 that the claim states — the `Unused` switch case
leaves the size 0, so the byte re-enters the compact-range fallback and
is captured by the FixMap test. -/
theorem c2_reserved_byte_decode_eval :
    (decode_single (write_marker (mkMP 16) MPMarker.Unused)).1.marker = MPMarker.FixMap ∧
    (decode_single (write_marker (mkMP 16) MPMarker.Unused)).1.size = 1 ∧
    MPMarker.FixMap ≠ MPMarker.Unused := by decide

/-- C3: evaluation of the code at a failing input: `write_uint(2^32)`
selects the Uint64 representation (the claim's marker selection holds
here) and writes the value big-endian, but `decode_single`'s Uint64
branch loads the payload with the raw stream read (`sr_.read_u64()`),
skipping the big-endian conversion every other integer width performs,
so the decoded value is the byte reversal 16777216 (2^24), not 2^32. -/
theorem c3_uint64_roundtrip_eval :
    (decode_single (write_uint (mkMP 16) 4294967296)).1.marker = MPMarker.Uint64 ∧
    asU64 (decode_single (write_uint (mkMP 16) 4294967296)).1.result = 16777216 ∧
    (16777216 : Nat) ≠ 4294967296 := by decide

/-- C4: evaluation of the code at a failing input: `start_map(16)` writes
the single FixMap byte 0x80 (the count 16 truncated to its low four
bits, i.e. 0) instead of the Map16 header the claim requires, because
`start_map`'s first branch tests `num_pairs <= Map16Max` (65535) where
the FixMap limit (15) was intended; decoding the written header yields a
zero-pair FixMap. -/
theorem c4_start_map_threshold_eval :
    (start_map (mkMP 16) 16).wpos = 1 ∧
    (start_map (mkMP 16) 16).buf.headD 0 = MPMarker.FixMap ∧
    (decode_single (start_map (mkMP 16) 16)).1.marker = MPMarker.FixMap ∧
    (decode_single (start_map (mkMP 16) 16)).1.size = 0 := by decide

/-- C5: evaluation of the code at a failing input: `start_array(256)`
writes the big-endian header DC 01 00 (the write half of the claim
holds), but `decode_single`'s Array16 branch reads the count with the
raw little-endian stream read (`sr_.read_u16()`), so the decoded size is
1, not 256. -/
theorem c5_array16_count_decode_eval :
    (start_array (mkMP 16) 256).buf.take 3 = [MPMarker.Array16, 1, 0] ∧
    (decode_single (start_array (mkMP 16) 256)).1.marker = MPMarker.Array16 ∧
    (decode_single (start_array (mkMP 16) 256)).1.size = 1 := by decide

/-- C6: fixint boundary behaviour: encoding +127 through the fixint path
decodes as PosFixInt with value 127; encoding −20 decodes as NegFixInt
with value −20; encoding −33 decodes as NegFixInt with value −1, because
`write_negfixint` stores only the low 5 bits OR'd with 0xE0 (the byte
written for −33 is 0xFF — silent 5-bit wrap, not saturation at −32). -/
theorem c6_fixint_boundary :
    ((decode_single (write_fixint (mkMP 16) 127)).1.marker = MPMarker.PosFixInt ∧
      asU8 (decode_single (write_fixint (mkMP 16) 127)).1.result = 127) ∧
    ((decode_single (write_fixint (mkMP 16) (-20))).1.marker = MPMarker.NegFixInt ∧
      asI8 (decode_single (write_fixint (mkMP 16) (-20))).1.result = -20) ∧
    ((decode_single (write_fixint (mkMP 16) (-33))).1.marker = MPMarker.NegFixInt ∧
      asI8 (decode_single (write_fixint (mkMP 16) (-33))).1.result = -1) ∧
    (write_negfixint (mkMP 16) (-33)).buf.headD 0 = 0xff := by decide

/-- C10: for every variable-length header tag (Bin8/16/32, Ext8/16/32,
Str8/16/32, Array16/32, Map16/32) whose length/count field decodes to 0,
`decode_single` does not return that tag with size 0: the tag byte
re-enters the compact-range fallback and is reported as FixMap with
size = tag & 0x0F; in particular a Str8 of length 0 (bytes 0xD9 0x00) is
reported as FixMap with size 9. -/
theorem c10_zero_length_header_fixmap :
    (∀ t ∈ [0xc4, 0xc5, 0xc6, 0xc7, 0xc8, 0xc9, 0xd9, 0xda,
            0xdb, 0xdc, 0xdd, 0xde, 0xdf],
      (decode_single ⟨0, 1, 16, t :: List.replicate 15 0⟩).1.marker = MPMarker.FixMap ∧
      (decode_single ⟨0, 1, 16, t :: List.replicate 15 0⟩).1.size = t &&& 0xf ∧
      (decode_single ⟨0, 1, 16, t :: List.replicate 15 0⟩).1.marker ≠ t) ∧
    (decode_single ⟨0, 1, 16, 0xd9 :: List.replicate 15 0⟩).1.size = 9 := by
  decide

/-- Witness for C10 at the claim's own example, a Str8 header with length
field 0 (bytes 0xD9 0x00). -/
theorem c10_zero_length_header_fixmap_witness :
    (0xd9 : Nat) ∈ [0xc4, 0xc5, 0xc6, 0xc7, 0xc8, 0xc9, 0xd9, 0xda,
                    0xdb, 0xdc, 0xdd, 0xde, 0xdf] ∧
    ((decode_single ⟨0, 1, 16, 0xd9 :: List.replicate 15 0⟩).1.marker = MPMarker.FixMap ∧
      (decode_single ⟨0, 1, 16, 0xd9 :: List.replicate 15 0⟩).1.size = 0xd9 &&& 0xf ∧
      (decode_single ⟨0, 1, 16, 0xd9 :: List.replicate 15 0⟩).1.marker ≠ 0xd9) :=
  ⟨by decide, c10_zero_length_header_fixmap.1 0xd9 (by decide)⟩

/-- C7: for every cursor read or write, if `count == 0`, or the data
pointer is null, or `count >= capacity`, or `position + count` would
exceed capacity, or the cursor lacks its copy function or buffer, then
the operation is a complete no-op: buffer contents, cursor position and
the read destination are all unchanged — no partial writes. -/
theorem c7_guard_rejects_as_noop :
    (∀ (s : StreamReader) (count : Nat) (dst : Option (List Nat)) (peek : Bool),
      count = 0 ∨ dst = none ∨ count ≥ s.streamSize ∨
        s.position + count > s.streamSize ∨ s.isValid = false →
      readAndAdvance s count dst peek = (dst, s)) ∧
    (∀ (s : StreamWriter) (count : Nat) (src : Option (List Nat)),
      count = 0 ∨ src = none ∨ count ≥ s.streamSize ∨
        s.position + count > s.streamSize ∨ s.isValid = false →
      writeAndAdvance s count src = s) :=
  ⟨readAndAdvance_of_reject, writeAndAdvance_of_reject⟩

/-- Witness for C7: a cursor at position 2 of a 4-byte stream rejects a
3-byte read and a 3-byte write without any change of state. -/
theorem c7_guard_rejects_as_noop_witness :
    ((2 : Nat) + 3 > 4) ∧
    readAndAdvance ⟨2, 4, some [9, 9, 9, 9], true⟩ 3 (some [7, 7, 7]) false =
      (some [7, 7, 7], ⟨2, 4, some [9, 9, 9, 9], true⟩) ∧
    writeAndAdvance ⟨2, 4, some [9, 9, 9, 9], true⟩ 3 (some [1, 2, 3]) =
      ⟨2, 4, some [9, 9, 9, 9], true⟩ :=
  ⟨by decide,
    c7_guard_rejects_as_noop.1 ⟨2, 4, some [9, 9, 9, 9], true⟩ 3 (some [7, 7, 7])
      false (Or.inr (Or.inr (Or.inr (Or.inl (by decide))))),
    c7_guard_rejects_as_noop.2 ⟨2, 4, some [9, 9, 9, 9], true⟩ 3 (some [1, 2, 3])
      (Or.inr (Or.inr (Or.inr (Or.inl (by decide)))))⟩

/-- C8: every read and write operation preserves the invariant
`position <= capacity`: starting from a cursor whose position is at most
its capacity, the resulting position never exceeds `stream_size`, any
operation that would push it past being rejected before memory is
touched. -/
theorem c8_position_le_capacity :
    (∀ (s : StreamReader) (count : Nat) (dst : Option (List Nat)) (peek : Bool),
      s.position ≤ s.streamSize →
      ((readAndAdvance s count dst peek).2).position ≤ s.streamSize) ∧
    (∀ (s : StreamWriter) (count : Nat) (src : Option (List Nat)),
      s.position ≤ s.streamSize →
      (writeAndAdvance s count src).position ≤ s.streamSize) := by
  constructor
  · intro s count dst peek h
    unfold readAndAdvance
    split
    · exact h
    next hneg =>
      push_neg at hneg
      obtain ⟨-, -, -, h4, -⟩ := hneg
      cases peek with
      | true => exact h
      | false =>
        show s.position + count ≤ s.streamSize
        omega
  · intro s count src h
    unfold writeAndAdvance
    split
    · exact h
    next hneg =>
      push_neg at hneg
      obtain ⟨-, -, -, h4, -⟩ := hneg
      show s.position + count ≤ s.streamSize
      omega

/-- Witness for C8: an accepted 2-byte read from position 1 of a 4-byte
stream and a rejected 9-byte write both leave the position within the
capacity. -/
theorem c8_position_le_capacity_witness :
    ((1 : Nat) ≤ 4) ∧
    ((readAndAdvance ⟨1, 4, some [9, 9, 9, 9], true⟩ 2 (some [0, 0]) false).2).position ≤ 4 ∧
    (writeAndAdvance ⟨1, 4, some [9, 9, 9, 9], true⟩ 9 (some [0])).position ≤ 4 :=
  ⟨by decide,
    c8_position_le_capacity.1 ⟨1, 4, some [9, 9, 9, 9], true⟩ 2 (some [0, 0])
      false (by decide),
    c8_position_le_capacity.2 ⟨1, 4, some [9, 9, 9, 9], true⟩ 9 (some [0])
      (by decide)⟩

/-- C9: every rejected typed read returns the value 0 with the cursor
unchanged (the zero-initialized destination POD is never written), and in
particular a cursor at end of stream returns 0 for the read and for every
subsequent read, since its state — still exhausted — is unchanged. -/
theorem c9_rejected_reads_zero :
    (∀ (s : StreamReader) (w : Nat) (peek : Bool),
      w = 0 ∨ w ≥ s.streamSize ∨ s.position + w > s.streamSize ∨
        s.isValid = false →
      readPod s w peek = (0, s)) ∧
    (∀ (s : StreamReader) (w : Nat),
      s.position = s.streamSize → 1 ≤ w →
      readPod s w false = (0, s)) := by
  have main : ∀ (s : StreamReader) (w : Nat) (peek : Bool),
      w = 0 ∨ w ≥ s.streamSize ∨ s.position + w > s.streamSize ∨
        s.isValid = false →
      readPod s w peek = (0, s) := by
    intro s w peek h
    unfold readPod
    rw [readAndAdvance_of_reject s w (some (List.replicate w 0)) peek]
    · simp [leValue_replicate_zero]
    · rcases h with h | h | h | h
      · exact Or.inl h
      · exact Or.inr (Or.inr (Or.inl h))
      · exact Or.inr (Or.inr (Or.inr (Or.inl h)))
      · exact Or.inr (Or.inr (Or.inr (Or.inr h)))
  exact ⟨main, fun s w hpos hw =>
    main s w false (Or.inr (Or.inr (Or.inl (by omega))))⟩

/-- Witness for C9: a cursor at the end of its 4-byte stream returns 0
from a 2-byte read and is left exhausted. -/
theorem c9_rejected_reads_zero_witness :
    ((⟨4, 4, some [9, 9, 9, 9], true⟩ : StreamReader).position =
      (⟨4, 4, some [9, 9, 9, 9], true⟩ : StreamReader).streamSize) ∧
    readPod ⟨4, 4, some [9, 9, 9, 9], true⟩ 2 false =
      (0, ⟨4, 4, some [9, 9, 9, 9], true⟩) :=
  ⟨rfl, c9_rejected_reads_zero.2 ⟨4, 4, some [9, 9, 9, 9], true⟩ 2 rfl
    (by decide)⟩

end LibMsgpack





